import Mathlib

set_option autoImplicit false
set_option linter.unusedVariables false

/-
Verification of the audacitorch example-notebook packaging pipeline
(`notebooks/example.ipynb`) against its specification.

The notebook builds a metadata dictionary for a pretrained source-separation
model, wraps the model in a `WaveformToWaveform` shape-contract wrapper,
traces the wrapper, exercises the traced model on synthetic example inputs
(`test_run`), validates the metadata (`validate_metadata`), and persists
model plus metadata (`save_model`).  The library functions
`validate_metadata`, `test_run`, `save_model` and the wrapper base class
belong to the audacitorch package and are not defined in the notebook
source, so they are modelled here from the specification; the notebook's own
cells (the concrete metadata dictionary, the `AsteroidWrapper` forward-pass
override, and the serialization cell's control flow) are embedded from the
source.
-/

namespace Audacitorch

/-- JSON-like values that can appear as fields of the metadata mapping:
integers, strings, sequences of strings, and booleans. -/
inductive JValue where
  | jInt (n : Int)
  | jStr (s : String)
  | jStrList (xs : List String)
  | jBool (b : Bool)
deriving DecidableEq, Repr

/-- A metadata mapping is an ordered association list from field names to
values, mirroring the Python dictionary built in the notebook. -/
abbrev Metadata := List (String × JValue)

/-- First-match lookup of a field in a metadata mapping. -/
def lookupField (m : Metadata) (k : String) : Option JValue :=
  match m with
  | [] => none
  | (k₀, v) :: rest => if k₀ = k then some v else lookupField rest k

/-- The always-required metadata keys, in schema order. -/
def requiredKeys : List String :=
  ["sample_rate", "domain_tags", "short_description", "long_description",
   "tags", "effect_type", "multichannel"]

/-- All schema keys: the required ones plus the conditionally required
`labels`. -/
def schemaKeys : List String := requiredKeys ++ ["labels"]

/-- The two recognized effect types. -/
def effectTypes : List String := ["waveform-to-waveform", "waveform-to-labels"]

/-- Whether a present field's value conforms to the schema for its key:
`sample_rate` a positive integer, `domain_tags` and `tags` non-empty
sequences of strings, the two descriptions strings, `effect_type` a string,
`multichannel` a boolean, and `labels` (when present) a non-empty sequence
of strings.  Absent fields are not this check's concern. -/
def fieldTypeOk (m : Metadata) (k : String) : Bool :=
  match lookupField m k with
  | none => true
  | some v =>
    if k = "sample_rate" then
      match v with
      | JValue.jInt n => decide (0 < n)
      | _ => false
    else if k = "domain_tags" then
      match v with
      | JValue.jStrList xs => !xs.isEmpty
      | _ => false
    else if k = "short_description" then
      match v with
      | JValue.jStr _ => true
      | _ => false
    else if k = "long_description" then
      match v with
      | JValue.jStr _ => true
      | _ => false
    else if k = "tags" then
      match v with
      | JValue.jStrList xs => !xs.isEmpty
      | _ => false
    else if k = "effect_type" then
      match v with
      | JValue.jStr _ => true
      | _ => false
    else if k = "multichannel" then
      match v with
      | JValue.jBool _ => true
      | _ => false
    else if k = "labels" then
      match v with
      | JValue.jStrList xs => !xs.isEmpty
      | _ => false
    else true

/-- Check 1: every always-required key is present; reports the first missing
key. -/
def checkRequired (m : Metadata) : Option String :=
  (requiredKeys.find? fun k => (lookupField m k).isNone).map
    (fun k => "missing required field: " ++ k)

/-- Check 2: every present schema field has a value of the schema's type and
value constraints; reports the first offending field. -/
def checkTypes (m : Metadata) : Option String :=
  (schemaKeys.find? fun k => !fieldTypeOk m k).map
    (fun k => "invalid value for field: " ++ k)

/-- Check 3a: the short description is at most 60 characters. -/
def checkShortLen (m : Metadata) : Option String :=
  match lookupField m "short_description" with
  | some (JValue.jStr s) =>
    if 60 < s.length then some "length bound exceeded for field: short_description" else none
  | _ => none

/-- Check 3b: the long description is at most 280 characters. -/
def checkLongLen (m : Metadata) : Option String :=
  match lookupField m "long_description" with
  | some (JValue.jStr s) =>
    if 280 < s.length then some "length bound exceeded for field: long_description" else none
  | _ => none

/-- Check 3: both description length bounds. -/
def checkLengths (m : Metadata) : Option String :=
  (checkShortLen m).orElse (fun _ => checkLongLen m)

/-- Check 4: `effect_type` is one of the two recognized values. -/
def checkEffectType (m : Metadata) : Option String :=
  match lookupField m "effect_type" with
  | some (JValue.jStr s) =>
    if effectTypes.contains s then none
    else some ("unrecognized value for field: effect_type: " ++ s)
  | _ => none

/-- Check 5: when `effect_type` is `waveform-to-labels`, the `labels` field
is present and non-empty. -/
def checkLabels (m : Metadata) : Option String :=
  match lookupField m "effect_type" with
  | some (JValue.jStr s) =>
    if s = "waveform-to-labels" then
      match lookupField m "labels" with
      | some (JValue.jStrList xs) =>
        if xs.isEmpty then some "missing required field: labels" else none
      | some _ => some "invalid value for field: labels"
      | none => some "missing required field: labels"
    else none
  | _ => none

/-- Modelled from the spec: `audacitorch.utils.validate_metadata`, which is
imported but not defined in the notebook source.  Per the spec it checks, in
order and short-circuiting on the first failure: (1) required keys present,
(2) field types and value constraints against the schema, (3) description
length bounds, (4) `effect_type` enum membership, (5) the cross-field labels
rule; it returns `(true, "")` on success and `(false, diagnostic)` on the
first failure, with the diagnostic naming the offending field. -/
def validate_metadata (m : Metadata) : Bool × String :=
  match checkRequired m with
  | some e => (false, e)
  | none =>
    match checkTypes m with
    | some e => (false, e)
    | none =>
      match checkLengths m with
      | some e => (false, e)
      | none =>
        match checkEffectType m with
        | some e => (false, e)
        | none =>
          match checkLabels m with
          | some e => (false, e)
          | none => (true, "")

/-- The first violated rule's diagnostic, scanning the five checks in spec
order. -/
def firstViolation (m : Metadata) : Option String :=
  ((((checkRequired m).orElse
      (fun _ => checkTypes m)).orElse
      (fun _ => checkLengths m)).orElse
      (fun _ => checkEffectType m)).orElse
      (fun _ => checkLabels m)

/-- All always-required keys are present. -/
def requiredPresent (m : Metadata) : Bool :=
  requiredKeys.all fun k => (lookupField m k).isSome

/-- Every present schema field conforms to the schema. -/
def typesOk (m : Metadata) : Bool :=
  schemaKeys.all fun k => fieldTypeOk m k

/-- Both description length bounds hold. -/
def lengthsOk (m : Metadata) : Bool :=
  (match lookupField m "short_description" with
   | some (JValue.jStr s) => decide (s.length ≤ 60)
   | _ => true) &&
  (match lookupField m "long_description" with
   | some (JValue.jStr s) => decide (s.length ≤ 280)
   | _ => true)

/-- A present `effect_type` string is one of the two recognized values. -/
def effectTypeOk (m : Metadata) : Bool :=
  match lookupField m "effect_type" with
  | some (JValue.jStr s) => effectTypes.contains s
  | _ => true

/-- The cross-field labels rule: `labels` present and non-empty whenever
`effect_type` is `waveform-to-labels`. -/
def labelsRuleOk (m : Metadata) : Bool :=
  if lookupField m "effect_type" = some (JValue.jStr "waveform-to-labels") then
    match lookupField m "labels" with
    | some (JValue.jStrList xs) => !xs.isEmpty
    | _ => false
  else true

/-- Modelled from the spec: the `validate_metadata` call with the input
mapping threaded through explicitly, so that the mapping the call leaves
behind can be compared with the mapping it was given (the spec requires no
mutation of the input). -/
def validate_metadata_run (m : Metadata) : (Bool × String) × Metadata :=
  match checkRequired m with
  | some e => ((false, e), m)
  | none =>
    match checkTypes m with
    | some e => ((false, e), m)
    | none =>
      match checkLengths m with
      | some e => ((false, e), m)
      | none =>
        match checkEffectType m with
        | some e => ((false, e), m)
        | none =>
          match checkLabels m with
          | some e => ((false, e), m)
          | none => ((true, ""), m)

/-- The concrete metadata dictionary of the spec's concrete scenario (a
simplified form of the dictionary built in the notebook's metadata cell). -/
def exampleMetadata : Metadata :=
  [("sample_rate", JValue.jInt 16000),
   ("domain_tags", JValue.jStrList ["speech"]),
   ("short_description", JValue.jStr "sep"),
   ("long_description", JValue.jStr "desc"),
   ("tags", JValue.jStrList ["t"]),
   ("labels", JValue.jStrList ["speaker-1", "speaker-2"]),
   ("effect_type", JValue.jStr "waveform-to-waveform"),
   ("multichannel", JValue.jBool false)]

/-- The spec's second concrete scenario: the valid example metadata with the
`labels` sequence emptied. -/
def cexLabels : Metadata :=
  [("sample_rate", JValue.jInt 16000),
   ("domain_tags", JValue.jStrList ["speech"]),
   ("short_description", JValue.jStr "sep"),
   ("long_description", JValue.jStr "desc"),
   ("tags", JValue.jStrList ["t"]),
   ("labels", JValue.jStrList []),
   ("effect_type", JValue.jStr "waveform-to-labels"),
   ("multichannel", JValue.jBool false)]

/-- The spec's second concrete scenario verbatim: the valid example metadata
(whose `effect_type` is `waveform-to-waveform`) with `labels` emptied. -/
def cexLabelsW2W : Metadata :=
  [("sample_rate", JValue.jInt 16000),
   ("domain_tags", JValue.jStrList ["speech"]),
   ("short_description", JValue.jStr "sep"),
   ("long_description", JValue.jStr "desc"),
   ("tags", JValue.jStrList ["t"]),
   ("labels", JValue.jStrList []),
   ("effect_type", JValue.jStr "waveform-to-waveform"),
   ("multichannel", JValue.jBool false)]

/-- A 61-character string, one past the short-description bound. -/
def overlongShort : String := String.mk (List.replicate 61 'a')

/-- JSON documents, the content of the `metadata.json` file written by
`save_model`. -/
inductive Json where
  | jsonNull
  | jsonBool (b : Bool)
  | jsonNum (n : Int)
  | jsonStr (s : String)
  | jsonArr (xs : List Json)
  | jsonObj (fields : List (String × Json))
deriving Repr

/-- JSON encoding of a metadata field value. -/
def jvalToJson : JValue → Json
  | JValue.jInt n => Json.jsonNum n
  | JValue.jStr s => Json.jsonStr s
  | JValue.jStrList xs => Json.jsonArr (xs.map Json.jsonStr)
  | JValue.jBool b => Json.jsonBool b

/-- Decode a JSON array's elements as strings. -/
def decodeStrings : List Json → Option (List String)
  | [] => some []
  | Json.jsonStr s :: rest => (decodeStrings rest).map (fun xs => s :: xs)
  | _ => none

/-- Decode a JSON value back into a metadata field value. -/
def jsonToJval : Json → Option JValue
  | Json.jsonNum n => some (JValue.jInt n)
  | Json.jsonStr s => some (JValue.jStr s)
  | Json.jsonBool b => some (JValue.jBool b)
  | Json.jsonArr xs => (decodeStrings xs).map JValue.jStrList
  | _ => none

/-- Modelled from the spec: the `metadata.json` document that
`audacitorch.utils.save_model` (imported but not defined in the notebook
source) writes for a metadata mapping — a JSON object with exactly the
mapping's fields, in order.  File I/O is modelled as identity on the JSON
document. -/
def save_metadata_json (m : Metadata) : Json :=
  Json.jsonObj (m.map fun kv => (kv.1, jvalToJson kv.2))

/-- Decode the fields of a JSON object back into a metadata mapping. -/
def readFields : List (String × Json) → Option Metadata
  | [] => some []
  | (k, j) :: rest =>
    match jsonToJval j with
    | none => none
    | some v => (readFields rest).map (fun m => (k, v) :: m)

/-- Modelled from the spec: re-reading the `metadata.json` document into a
metadata mapping. -/
def read_metadata : Json → Option Metadata
  | Json.jsonObj fields => readFields fields
  | _ => none

/-- Modelled from the spec: a waveform-to-waveform shape-contract wrapper,
reduced to its shape semantics — the number of declared sources (the length
of the labels list) and the shape-level effect of `do_forward_pass`. -/
structure W2WWrapper where
  nSources : Nat
  doForwardPass : List Nat → List Nat

/-- The fatal error raised when the wrapper's output shape violates the
declared contract. -/
inductive ShapeContractError where
  | mk (expectedSources : Nat) (actual : List Nat)
deriving DecidableEq, Repr

/-- Shape-level semantics of Asteroid's `separate`: on a waveform of shape
`(channels, samples)` it returns a batch of separated sources of shape
`(1, n_src, samples)`. -/
def asteroidSeparate (nSrc : Nat) : List Nat → List Nat
  | [c, n] => [1, nSrc, n]
  | s => s

/-- The notebook's `AsteroidWrapper.do_forward_pass` override:
`self.model.separate(x)[0]`, i.e. separate and drop the batch dimension. -/
def asteroidDoForwardPass (nSrc : Nat) (x : List Nat) : List Nat :=
  (asteroidSeparate nSrc x).drop 1

/-- The notebook's `AsteroidWrapper` around a model with `nSrc` sources. -/
def asteroidWrapper (nSrc : Nat) : W2WWrapper :=
  { nSources := nSrc, doForwardPass := asteroidDoForwardPass nSrc }

/-- Modelled from the spec: `audacitorch.utils.test_run` (imported but not
defined in the notebook source) at shape level — invoke the wrapper on an
example input and confirm the output is rank 2 with first dimension equal to
the declared number of sources; a mismatch raises `ShapeContractError`
instead of returning normally. -/
def test_run (w : W2WWrapper) (inp : List Nat) : Except ShapeContractError (List Nat) :=
  let out := w.doForwardPass inp
  if out.length = 2 ∧ out.head? = some w.nSources then Except.ok out
  else Except.error (ShapeContractError.mk w.nSources out)

/-- The stages of the notebook's packaging pipeline, in the order the cells
execute them. -/
inductive Step where
  | buildMetadata
  | buildWrapper
  | getExampleInputs
  | traceModel
  | scriptModel
  | testRunStep
  | validateStep
  | assertSuccess
  | saveStep
deriving DecidableEq, Repr

/-- The notebook's actual execution order: the metadata cell runs first,
then the serialization cell builds the wrapper, fetches example inputs,
traces, scripts, test-runs, validates the metadata, asserts success, and
saves. -/
def notebookPipeline : List Step :=
  [Step.buildMetadata, Step.buildWrapper, Step.getExampleInputs, Step.traceModel,
   Step.scriptModel, Step.testRunStep, Step.validateStep, Step.assertSuccess,
   Step.saveStep]

/-- One pipeline stage runs strictly before another. -/
def occursBefore (a b : Step) : Bool :=
  notebookPipeline.indexOf a < notebookPipeline.indexOf b

lemma firstViolation_eq_none_iff (m : Metadata) :
    firstViolation m = none ↔
      checkRequired m = none ∧ checkTypes m = none ∧ checkLengths m = none ∧
      checkEffectType m = none ∧ checkLabels m = none := by
  unfold firstViolation
  cases checkRequired m <;> cases checkTypes m <;> cases checkLengths m <;>
    cases checkEffectType m <;> cases checkLabels m <;> simp [Option.orElse]

lemma validate_eq_firstViolation (m : Metadata) :
    validate_metadata m =
      match firstViolation m with
      | none => (true, "")
      | some e => (false, e) := by
  unfold validate_metadata firstViolation
  cases checkRequired m <;> cases checkTypes m <;> cases checkLengths m <;>
    cases checkEffectType m <;> cases checkLabels m <;> simp [Option.orElse]

lemma validate_fst_false (m : Metadata) (h : firstViolation m ≠ none) :
    (validate_metadata m).1 = false := by
  rw [validate_eq_firstViolation]
  cases hv : firstViolation m
  · exact absurd hv h
  · simp

lemma checkRequired_eq_none_of (m : Metadata) (h : requiredPresent m = true) :
    checkRequired m = none := by
  unfold checkRequired
  rw [Option.map_eq_none', List.find?_eq_none]
  intro k hk
  have := (List.all_eq_true.mp h) k hk
  obtain ⟨a, ha⟩ := Option.isSome_iff_exists.mp this
  simp [ha]

lemma checkTypes_eq_none_of (m : Metadata) (h : typesOk m = true) :
    checkTypes m = none := by
  unfold checkTypes
  rw [Option.map_eq_none', List.find?_eq_none]
  intro k hk
  have := (List.all_eq_true.mp h) k hk
  simp_all

lemma checkShortLen_eq_none_of (m : Metadata)
    (h : ∀ s, lookupField m "short_description" = some (JValue.jStr s) → s.length ≤ 60) :
    checkShortLen m = none := by
  unfold checkShortLen
  split
  next s heq => exact if_neg (Nat.not_lt.mpr (h s heq))
  next => rfl

lemma checkLongLen_eq_none_of (m : Metadata)
    (h : ∀ s, lookupField m "long_description" = some (JValue.jStr s) → s.length ≤ 280) :
    checkLongLen m = none := by
  unfold checkLongLen
  split
  next s heq => exact if_neg (Nat.not_lt.mpr (h s heq))
  next => rfl

lemma checkLengths_eq_none_of (m : Metadata) (h : lengthsOk m = true) :
    checkLengths m = none := by
  unfold lengthsOk at h
  rw [Bool.and_eq_true] at h
  obtain ⟨h1, h2⟩ := h
  have hs : checkShortLen m = none := by
    apply checkShortLen_eq_none_of
    intro s heq
    rw [heq] at h1
    simpa using h1
  have hl : checkLongLen m = none := by
    apply checkLongLen_eq_none_of
    intro s heq
    rw [heq] at h2
    simpa using h2
  unfold checkLengths
  rw [hs, hl]
  rfl

lemma checkEffectType_eq_none_of (m : Metadata) (h : effectTypeOk m = true) :
    checkEffectType m = none := by
  unfold checkEffectType
  unfold effectTypeOk at h
  split
  next s heq =>
    rw [heq] at h
    simp only at h
    rw [if_pos (by simpa using h)]
  next => rfl

lemma checkLabels_eq_none_of (m : Metadata) (h : labelsRuleOk m = true) :
    checkLabels m = none := by
  unfold labelsRuleOk at h
  unfold checkLabels
  split
  next s heq =>
    by_cases hw : s = "waveform-to-labels"
    · subst hw
      rw [if_pos heq] at h
      rw [if_pos rfl]
      split
      next xs heq2 =>
        rw [heq2] at h
        simp only at h
        rw [if_neg (by simpa using h)]
      next val hne heq2 =>
        rw [heq2] at h
        cases val with
        | jStrList xs => exact absurd rfl (hne xs)
        | jInt n => simp at h
        | jStr s2 => simp at h
        | jBool b => simp at h
      next heq2 => rw [heq2] at h; simp at h
    · rw [if_neg hw]
  next => rfl

lemma decodeStrings_map_jsonStr (xs : List String) :
    decodeStrings (xs.map Json.jsonStr) = some xs := by
  induction xs with
  | nil => rfl
  | cons x rest ih => simp [decodeStrings, ih]

lemma jsonToJval_jvalToJson (v : JValue) : jsonToJval (jvalToJson v) = some v := by
  cases v with
  | jInt n => rfl
  | jStr s => rfl
  | jBool b => rfl
  | jStrList xs => simp [jvalToJson, jsonToJval, decodeStrings_map_jsonStr]

lemma readFields_save (m : Metadata) :
    readFields (m.map fun kv => (kv.1, jvalToJson kv.2)) = some m := by
  induction m with
  | nil => rfl
  | cons kv rest ih =>
    obtain ⟨k, v⟩ := kv
    simp [readFields, jsonToJval_jvalToJson, ih]

/-- Claim C1: for every metadata mapping that is missing at least one
required field — one of the seven always-required keys, or `labels` when
`effect_type` is `waveform-to-labels` — `validate_metadata` returns
success = false. -/
theorem validate_metadata_missing_field_fails (m : Metadata)
    (h : (∃ k, k ∈ requiredKeys ∧ lookupField m k = none) ∨
         (lookupField m "effect_type" = some (JValue.jStr "waveform-to-labels") ∧
          lookupField m "labels" = none)) :
    (validate_metadata m).1 = false := by
  apply validate_fst_false
  intro hnone
  rw [firstViolation_eq_none_iff] at hnone
  obtain ⟨h1, h2, h3, h4, h5⟩ := hnone
  rcases h with ⟨k, hk, hkn⟩ | ⟨heff, hlab⟩
  · unfold checkRequired at h1
    rw [Option.map_eq_none', List.find?_eq_none] at h1
    exact h1 k hk (by simp [hkn])
  · unfold checkLabels at h5
    rw [heff] at h5
    simp [hlab] at h5

/-- Witness for claim C1: the empty mapping is missing `sample_rate`, and
validation fails on it. -/
theorem validate_metadata_missing_field_fails_witness :
    (∃ k, k ∈ requiredKeys ∧ lookupField ([] : Metadata) k = none) ∧
    (validate_metadata ([] : Metadata)).1 = false :=
  ⟨⟨"sample_rate", by decide, rfl⟩,
   validate_metadata_missing_field_fails [] (Or.inl ⟨"sample_rate", by decide, rfl⟩)⟩

/-- Claim C2: for every valid metadata mapping — all required fields
present, every present field of the schema's type and value constraints,
the description length bounds respected, `effect_type` one of the two enum
values, labels present and non-empty when `effect_type` requires them —
`validate_metadata` returns success = true with an empty message.  The
witness instantiates this at the spec's concrete example metadata. -/
theorem validate_metadata_valid_success (m : Metadata)
    (h : requiredPresent m = true ∧ typesOk m = true ∧ lengthsOk m = true ∧
         effectTypeOk m = true ∧ labelsRuleOk m = true) :
    validate_metadata m = (true, "") := by
  obtain ⟨h1, h2, h3, h4, h5⟩ := h
  simp [validate_metadata, checkRequired_eq_none_of m h1, checkTypes_eq_none_of m h2,
        checkLengths_eq_none_of m h3, checkEffectType_eq_none_of m h4,
        checkLabels_eq_none_of m h5]

/-- Witness for claim C2: the spec's concrete example metadata is valid and
`validate_metadata` returns `(true, "")` on it. -/
theorem validate_metadata_valid_success_witness :
    (requiredPresent exampleMetadata = true ∧ typesOk exampleMetadata = true ∧
     lengthsOk exampleMetadata = true ∧ effectTypeOk exampleMetadata = true ∧
     labelsRuleOk exampleMetadata = true) ∧
    validate_metadata exampleMetadata = (true, "") :=
  ⟨by decide, validate_metadata_valid_success exampleMetadata (by decide)⟩

/-- Claim C3: for every metadata mapping with `effect_type` equal to
`waveform-to-labels` and an empty labels sequence, `validate_metadata`
returns success = false; and on the concrete scenario equal to the valid
example metadata but with `labels = []`, it returns `(false, msg)` where the
message names the `labels` field. -/
theorem validate_metadata_empty_labels :
    (∀ m : Metadata,
       lookupField m "effect_type" = some (JValue.jStr "waveform-to-labels") →
       lookupField m "labels" = some (JValue.jStrList []) →
       (validate_metadata m).1 = false) ∧
    validate_metadata cexLabelsW2W = (false, "invalid value for field: labels") := by
  constructor
  · intro m heff hlab
    apply validate_fst_false
    intro hnone
    rw [firstViolation_eq_none_iff] at hnone
    have h5 := hnone.2.2.2.2
    unfold checkLabels at h5
    rw [heff] at h5
    simp [hlab] at h5
  · rfl

/-- Witness for claim C3: the universal part applied to the example metadata
with `effect_type = waveform-to-labels` and empty labels. -/
theorem validate_metadata_empty_labels_witness :
    (validate_metadata cexLabels).1 = false :=
  validate_metadata_empty_labels.1 cexLabels (by decide) (by decide)

/-- Claim C4: for a waveform-to-waveform wrapper and an example input of
shape `(1, N)` with `N > 0`, the notebook's Asteroid wrapper returns a
tensor of shape `(sources, samples)` whose first dimension is the declared
number of sources and the shape check passes; any run of the check that
returns normally has a contract-conforming output shape, and when the output
shape violates the contract the check raises `ShapeContractError` instead of
returning normally. -/
theorem w2w_shape_contract (w : W2WWrapper) (nSrc n : Nat) (h : 0 < n) :
    test_run (asteroidWrapper nSrc) [1, n] = Except.ok [nSrc, n] ∧
    (∀ out, test_run w [1, n] = Except.ok out → out.head? = some w.nSources) ∧
    (¬ ((w.doForwardPass [1, n]).length = 2 ∧
        (w.doForwardPass [1, n]).head? = some w.nSources) →
      test_run w [1, n] =
        Except.error (ShapeContractError.mk w.nSources (w.doForwardPass [1, n]))) := by
  refine ⟨?_, ?_, ?_⟩
  · simp [test_run, asteroidWrapper, asteroidDoForwardPass, asteroidSeparate]
  · intro out hout
    unfold test_run at hout
    by_cases hc : (w.doForwardPass [1, n]).length = 2 ∧
        (w.doForwardPass [1, n]).head? = some w.nSources
    · rw [if_pos hc] at hout
      cases hout
      exact hc.2
    · rw [if_neg hc] at hout
      exact Except.noConfusion hout
  · intro hc
    unfold test_run
    rw [if_neg hc]

/-- Witness for claim C4: two declared sources, a 4800-sample example input,
and a misbehaving wrapper whose output shape `(3, 5, 7)` gets rejected. -/
theorem w2w_shape_contract_witness :
    0 < 4800 ∧
    (test_run (asteroidWrapper 2) [1, 4800] = Except.ok [2, 4800] ∧
     (∀ out, test_run (W2WWrapper.mk 2 (fun _ => [3, 5, 7])) [1, 4800] = Except.ok out →
        out.head? = some 2) ∧
     (¬ ((((W2WWrapper.mk 2 (fun _ => [3, 5, 7])).doForwardPass [1, 4800]).length = 2) ∧
         ((W2WWrapper.mk 2 (fun _ => [3, 5, 7])).doForwardPass [1, 4800]).head? = some 2) →
       test_run (W2WWrapper.mk 2 (fun _ => [3, 5, 7])) [1, 4800] =
         Except.error (ShapeContractError.mk 2
           ((W2WWrapper.mk 2 (fun _ => [3, 5, 7])).doForwardPass [1, 4800])))) :=
  ⟨by decide, w2w_shape_contract (W2WWrapper.mk 2 (fun _ => [3, 5, 7])) 2 4800 (by decide)⟩

/-- Claim C5: serializing a valid metadata mapping to the `metadata.json`
document and re-reading it yields a mapping equal to the original, field for
field. -/
theorem save_metadata_roundtrip (m : Metadata)
    (h : validate_metadata m = (true, "")) :
    read_metadata (save_metadata_json m) = some m := by
  unfold save_metadata_json read_metadata
  exact readFields_save m

/-- Witness for claim C5: the round trip at the spec's concrete example
metadata. -/
theorem save_metadata_roundtrip_witness :
    validate_metadata exampleMetadata = (true, "") ∧
    read_metadata (save_metadata_json exampleMetadata) = some exampleMetadata :=
  ⟨by decide, save_metadata_roundtrip exampleMetadata (by decide)⟩

/-- Claim C6: `validate_metadata` performs its checks in the fixed order
required keys, field types, description lengths, effect-type enum, labels
cross-field rule, short-circuiting on the first failure: its result is
`(true, "")` when no check reports a violation and `(false, e)` where `e` is
the first check's diagnostic otherwise (each check's diagnostic names the
offending field by construction). -/
theorem validate_metadata_check_order (m : Metadata) :
    validate_metadata m =
      match firstViolation m with
      | none => (true, "")
      | some e => (false, e) :=
  validate_eq_firstViolation m

/-- Claim C7: the validator is pure — equal inputs give equal results, the
mapping left behind by a call is the mapping it was given, and the threaded
run agrees with the plain function. -/
theorem validate_metadata_pure (m₁ m₂ : Metadata) (h : m₁ = m₂) :
    validate_metadata_run m₁ = validate_metadata_run m₂ ∧
    (validate_metadata_run m₁).2 = m₁ ∧
    (validate_metadata_run m₁).1 = validate_metadata m₁ := by
  subst h
  refine ⟨rfl, ?_, ?_⟩
  · unfold validate_metadata_run
    cases checkRequired m₁ <;> cases checkTypes m₁ <;> cases checkLengths m₁ <;>
      cases checkEffectType m₁ <;> cases checkLabels m₁ <;> rfl
  · unfold validate_metadata_run validate_metadata
    cases checkRequired m₁ <;> cases checkTypes m₁ <;> cases checkLengths m₁ <;>
      cases checkEffectType m₁ <;> cases checkLabels m₁ <;> rfl

/-- Witness for claim C7: purity at the concrete example metadata. -/
theorem validate_metadata_pure_witness :
    validate_metadata_run exampleMetadata = validate_metadata_run exampleMetadata ∧
    (validate_metadata_run exampleMetadata).2 = exampleMetadata ∧
    (validate_metadata_run exampleMetadata).1 = validate_metadata exampleMetadata :=
  validate_metadata_pure exampleMetadata exampleMetadata rfl

/-- Claim C8: a metadata mapping whose `short_description` exceeds 60
characters or whose `long_description` exceeds 280 characters fails
validation. -/
theorem validate_metadata_desc_bounds (m : Metadata)
    (h : (∃ s, lookupField m "short_description" = some (JValue.jStr s) ∧ 60 < s.length) ∨
         (∃ s, lookupField m "long_description" = some (JValue.jStr s) ∧ 280 < s.length)) :
    (validate_metadata m).1 = false := by
  apply validate_fst_false
  intro hnone
  rw [firstViolation_eq_none_iff] at hnone
  obtain ⟨h1, h2, h3, h4, h5⟩ := hnone
  unfold checkLengths at h3
  have hOr : checkShortLen m = none ∧ checkLongLen m = none := by
    cases hs : checkShortLen m <;> cases hl : checkLongLen m <;> simp_all [Option.orElse]
  rcases h with ⟨s, hs, hlen⟩ | ⟨s, hs, hlen⟩
  · have hx := hOr.1
    unfold checkShortLen at hx
    rw [hs] at hx
    simp [hlen] at hx
  · have hx := hOr.2
    unfold checkLongLen at hx
    rw [hs] at hx
    simp [hlen] at hx

/-- Witness for claim C8: a mapping with a 61-character short description
fails validation. -/
theorem validate_metadata_desc_bounds_witness :
    (∃ s, lookupField [("short_description", JValue.jStr overlongShort)] "short_description" =
            some (JValue.jStr s) ∧ 60 < s.length) ∧
    (validate_metadata [("short_description", JValue.jStr overlongShort)]).1 = false :=
  ⟨⟨overlongShort, rfl, by decide⟩,
   validate_metadata_desc_bounds _ (Or.inl ⟨overlongShort, rfl, by decide⟩)⟩

/-- Counterexample to claim C9: in the notebook's actual execution order the
wrapper is built and the model traced strictly before `validate_metadata`
runs, so the claim that the model is never wrapped or traced before its
metadata has passed validation is false of the code. -/
theorem notebook_wraps_and_traces_before_validation :
    occursBefore Step.buildWrapper Step.validateStep = true ∧
    occursBefore Step.traceModel Step.validateStep = true ∧
    occursBefore Step.validateStep Step.buildWrapper = false := by decide

/-- Claim C9 as amended: the notebook builds the metadata first, then builds
the wrapper, traces it, exercises the traced model on the synthetic example
input, then validates the metadata, and only after validation passes is the
artifact persisted — validation precedes persistence but not wrapping or
tracing. -/
theorem notebook_pipeline_order :
    occursBefore Step.buildMetadata Step.buildWrapper = true ∧
    occursBefore Step.buildWrapper Step.traceModel = true ∧
    occursBefore Step.traceModel Step.testRunStep = true ∧
    occursBefore Step.testRunStep Step.validateStep = true ∧
    occursBefore Step.validateStep Step.assertSuccess = true ∧
    occursBefore Step.assertSuccess Step.saveStep = true := by decide

end Audacitorch
